import Mathlib

/-!
Shallow embedding of the product-forecast form application (src/app.py).

The application is a single-page Streamlit form.  The parts embedded here are
the ones the verified properties speak about:

* the product catalog (`df_products`, a CSV loaded once, rows keyed by
  Product Group / Product Name / Description / PRODUCT CODE),
* the per-row reconciliation logic of `render_form_page` (group selector,
  name/detail selectors over catalog row indices, month inputs, total),
* the locked-row redisplay branch,
* the review gate (`Review Forecast` button), the `Go Back & Edit` button and
  the submit handler (`submit_to_google`).

Streamlit keyed widgets persist their state in the session: a widget returns
its stored value when that value is still a valid option and the widget's
default otherwise.  That contract is embedded by `selectboxNat`,
`selectboxStr` and `numberInput`; the per-row canonical index
(`st.session_state[row_idx_i]`) and the widget states are passed explicitly.
Machine integers are modelled as `Nat` (the month widgets have
`min_value = 0`, so only non-negative values occur).  Python's `str.strip`
is modelled by `pyStrip` on the underlying character list.
-/

namespace ProductForecast

/-- One record of `product list.csv` after `dropna(subset=[Product Group])`:
columns Product Group, Product Name, Description, PRODUCT CODE. -/
structure CatalogRecord where
  productGroup : String
  productName : String
  description : String
  productCode : String
deriving DecidableEq, Repr

/-- The catalog `df_products` in source (CSV) order; list position is the
pandas row index label. -/
abbrev Catalog := List CatalogRecord

/-- MONTH_LIST from app.py: the twelve month column names. -/
def MONTH_LIST : List String :=
  ["January", "February", "March", "April", "May", "June",
   "July", "August", "September", "October", "November", "December"]

/-- One forecast row dict of `st.session_state.product_entries`: keys
group/name/detail/code (None for a fresh row), the twelve month quantities in
MONTH_LIST order, and the derived total. -/
structure Entry where
  group : Option String
  name : Option String
  detail : Option String
  code : Option String
  months : List Nat
  total : Nat
deriving DecidableEq, Repr

/-- The fresh row appended by `ensure_entry_list_length` and by the
Add Product Forecast Row button: unset triple, all months 0, total 0. -/
def default_entry : Entry :=
  { group := none, name := none, detail := none, code := none,
    months := List.replicate 12 0, total := 0 }

/-- ensure_entry_list_length: append one default row when the list is empty. -/
def ensure_entry_list_length (entries : List Entry) : List Entry :=
  if entries = [] then entries ++ [default_entry] else entries

/-- Python str.strip(): drop leading and trailing whitespace characters. -/
def pyStrip (s : String) : String :=
  String.mk ((((s.data).dropWhile Char.isWhitespace).reverse.dropWhile
    Char.isWhitespace).reverse)

/-- Character-list comparison used to model Python's sorted() on strings
(lexicographic by code point). -/
def charListLe : List Char → List Char → Bool
  | [], _ => true
  | _ :: _, [] => false
  | a :: as, b :: bs =>
    if a < b then true else if b < a then false else charListLe as bs

/-- String comparison for sorted(). -/
def strLe (a b : String) : Bool := charListLe a.data b.data

/-- Stable insertion into a sorted list (helper of sortedStrings). -/
def insertSorted (x : String) : List String → List String
  | [] => [x]
  | y :: ys => if strLe x y then x :: y :: ys else y :: insertSorted x ys

/-- Python sorted() on a list of strings (stable, ascending). -/
def sortedStrings : List String → List String
  | [] => []
  | x :: xs => insertSorted x (sortedStrings xs)

/-- product_groups of render_form_page:
sorted(df_products[Product Group].unique().tolist()). -/
def product_groups (catalog : Catalog) : List String :=
  sortedStrings ((catalog.map (fun r => r.productGroup)).dedup)

/-- get_filtered_df, keeping the original pandas index labels: helper starting
from position i. -/
def filteredFrom : Catalog → Nat → String → List (Nat × CatalogRecord)
  | [], _, _ => []
  | r :: rest, i, group =>
    if r.productGroup = group then (i, r) :: filteredFrom rest (i + 1) group
    else filteredFrom rest (i + 1) group

/-- get_filtered_df(group): the catalog rows whose Product Group equals group,
paired with their index labels, in source order. -/
def get_filtered_df (catalog : Catalog) (group : String) :
    List (Nat × CatalogRecord) :=
  filteredFrom catalog 0 group

/-- find_row_index: best matching row index for an entry, by code, then name,
then detail, then the first row; none when the filtered frame is empty
(the Python code raises ValueError there, and never calls it so). -/
def find_row_index (filtered : List (Nat × CatalogRecord)) (entry : Entry) :
    Option Nat :=
  match filtered with
  | [] => none
  | first :: _ =>
    match filtered.find? (fun p => decide (entry.code = some p.2.productCode)) with
    | some p => some p.1
    | none =>
      match filtered.find? (fun p => decide (entry.name = some p.2.productName)) with
      | some p => some p.1
      | none =>
        match filtered.find? (fun p => decide (entry.detail = some p.2.description)) with
        | some p => some p.1
        | none => some first.1

/-- Streamlit keyed selectbox over row indices: the stored widget state is
kept when it is still one of the options, otherwise the default is shown. -/
def selectboxNat (options : List Nat) (defaultVal : Nat)
    (stored : Option Nat) : Nat :=
  match stored with
  | some v => if v ∈ options then v else defaultVal
  | none => defaultVal

/-- Streamlit keyed selectbox over strings, same persistence contract. -/
def selectboxStr (options : List String) (defaultVal : String)
    (stored : Option String) : String :=
  match stored with
  | some v => if v ∈ options then v else defaultVal
  | none => defaultVal

/-- Streamlit keyed number_input (min_value 0): the stored state is kept,
otherwise the default value is shown. -/
def numberInput (defaultVal : Nat) (stored : Option Nat) : Nat :=
  match stored with
  | some v => v
  | none => defaultVal

/-- The twelve month number_input reads of one row: widget state wins,
otherwise int(entry.get(m, 0)). -/
def readMonths (entryMonths : List Nat) (monthStates : List (Option Nat)) :
    List Nat :=
  (List.range 12).map (fun j =>
    numberInput (entryMonths.getD j 0) (monthStates.getD j none))

/-- pandas filtered.loc[idx]: the record carrying index label idx.  The junk
default is unreachable: every caller passes a label of the filtered frame. -/
def lookupRecord (filtered : List (Nat × CatalogRecord)) (idx : Nat) :
    CatalogRecord :=
  ((filtered.find? (fun p => decide (p.1 = idx))).map Prod.snd).getD
    ⟨"", "", "", ""⟩

/-- The group selectbox of an editable row (lines 285-293 of app.py):
options are the sorted unique groups, the default is the entry's stored group
when valid and the first option otherwise, and the keyed widget state wins
when still valid.  This total version covers the non-raising runs only: on
an empty group list line 286 evaluates product_groups[0] and raises
IndexError, a path collapsed to headD here and kept faithfully in
resolve_groupE below. -/
def resolve_group (catalog : Catalog) (entry : Entry)
    (groupState : Option String) : String :=
  let pgs := product_groups catalog
  let current_group :=
    match entry.group with
    | some g => if g ∈ pgs then g else pgs.headD ""
    | none => pgs.headD ""
  selectboxStr pgs current_group groupState

/-- Result of rendering one row: the entry written back, the canonical
row-index session value for that row, and whether the catalog-gap warning
was shown. -/
structure RowResult where
  entry : Entry
  canonical : Option Nat
  warning : Bool
deriving DecidableEq, Repr

/-- The per-row widget states feeding one render of one row. -/
structure RowInput where
  groupState : Option String
  nameState : Option Nat
  detailState : Option Nat
  monthStates : List (Option Nat)
deriving DecidableEq, Repr

/-- Lines 301-315 of app.py: the canonical row index shown this render.  The
stored row_idx_i value is kept (initialised to find_row_index when absent)
and falls back to the first option when it is no longer in the group. -/
def prevIdx (filtered : List (Nat × CatalogRecord)) (entry : Entry)
    (canonical : Option Nat) : Nat :=
  let option_indices := filtered.map Prod.fst
  let default_row_idx := (find_row_index filtered entry).getD 0
  let canon0 := canonical.getD default_row_idx
  if canon0 ∈ option_indices then canon0 else option_indices.headD 0

/-- Lines 317-341 of app.py: read the two selectors and decide which control
changed; the name selector wins, then the detail selector, else the
canonical index stands. -/
def newIdx (filtered : List (Nat × CatalogRecord)) (entry : Entry)
    (canonical : Option Nat) (nameState detailState : Option Nat) : Nat :=
  let option_indices := filtered.map Prod.fst
  let prev_idx := prevIdx filtered entry canonical
  let selName := selectboxNat option_indices prev_idx nameState
  let selDetail := selectboxNat option_indices prev_idx detailState
  if selName ≠ prev_idx then selName
  else if selDetail ≠ prev_idx then selDetail else prev_idx

/-- Lines 301-378 of app.py (the non-empty-group part of the editable
branch): reconcile the canonical index, look the chosen record up, read the
months and write the whole entry back. -/
def reconcileCore (filtered : List (Nat × CatalogRecord)) (group : String)
    (entry : Entry) (canonical : Option Nat)
    (nameState detailState : Option Nat)
    (monthStates : List (Option Nat)) : RowResult :=
  let new_idx := newIdx filtered entry canonical nameState detailState
  let selected_row := lookupRecord filtered new_idx
  let months := readMonths entry.months monthStates
  { entry := { group := some group,
               name := some selected_row.productName,
               detail := some selected_row.description,
               code := some selected_row.productCode,
               months := months, total := months.sum },
    canonical := some new_idx, warning := false }

/-- The editable-row branch of render_form_page (lines 280-378): resolve the
group, filter the catalog, warn and skip when the filtered frame is empty,
otherwise run the reconciliation core. -/
def renderEditableRow (catalog : Catalog) (entry : Entry)
    (canonical : Option Nat) (groupState : Option String)
    (nameState detailState : Option Nat)
    (monthStates : List (Option Nat)) : RowResult :=
  let group := resolve_group catalog entry groupState
  let filtered := get_filtered_df catalog group
  if filtered.isEmpty then
    { entry := entry, canonical := canonical, warning := true }
  else
    reconcileCore filtered group entry canonical nameState detailState
      monthStates

/-- Outcome of one editable-row render with the error path kept: line 286
of app.py evaluates product_groups[0], which raises IndexError when the
group list (and hence the catalog) is empty. -/
inductive RenderOutcome where
  | ok (res : RowResult)
  | indexError
deriving DecidableEq, Repr

/-- Lines 285-293 of app.py with the error path kept: current_group is the
stored group when it is among the options, otherwise product_groups[0] -
none models the IndexError raised there when the group list is empty (the
ternary evaluates the subscript only on that branch). -/
def resolve_groupE (catalog : Catalog) (entry : Entry)
    (groupState : Option String) : Option String :=
  let pgs := product_groups catalog
  match entry.group with
  | some g =>
    if g ∈ pgs then some (selectboxStr pgs g groupState)
    else
      match pgs with
      | [] => none
      | p0 :: _ => some (selectboxStr pgs p0 groupState)
  | none =>
    match pgs with
    | [] => none
    | p0 :: _ => some (selectboxStr pgs p0 groupState)

/-- The editable-row branch (lines 280-378) with the line-286 IndexError
path kept: an empty group list raises before the empty-frame check at lines
297-299 can run; otherwise the branch proceeds as renderEditableRow. -/
def renderEditableRowE (catalog : Catalog) (entry : Entry)
    (canonical : Option Nat) (groupState : Option String)
    (nameState detailState : Option Nat)
    (monthStates : List (Option Nat)) : RenderOutcome :=
  match resolve_groupE catalog entry groupState with
  | none => RenderOutcome.indexError
  | some group =>
    let filtered := get_filtered_df catalog group
    if filtered.isEmpty then
      RenderOutcome.ok { entry := entry, canonical := canonical,
                         warning := true }
    else
      RenderOutcome.ok (reconcileCore filtered group entry canonical
        nameState detailState monthStates)

/-- The locked-row branch (lines 251-278): only the month quantities and the
total are updated; group/name/detail/code keys are untouched. -/
def renderLockedRow (entry : Entry) (monthStates : List (Option Nat)) : Entry :=
  let months := readMonths entry.months monthStates
  { entry with months := months, total := months.sum }

/-- One loop iteration of render_form_page for row i (line 249: a row is
locked exactly when i < locked_rows). -/
def renderRow (catalog : Catalog) (locked_rows i : Nat) (entry : Entry)
    (canonical : Option Nat) (inp : RowInput) : RowResult :=
  if i < locked_rows then
    { entry := renderLockedRow entry inp.monthStates,
      canonical := canonical, warning := false }
  else
    renderEditableRow catalog entry canonical inp.groupState inp.nameState
      inp.detailState inp.monthStates

/-- The session state of app.py (page marker, entries, user fields and the
locked-row count).  The per-row canonical indices row_idx_i also live in
st.session_state; they are threaded separately as a map Nat → Option Nat. -/
structure Session where
  page : String
  product_entries : List Entry
  email : String
  company : String
  country : String
  locked_rows : Nat
deriving DecidableEq, Repr

/-- Outcome of the Review Forecast button (lines 385-399). -/
inductive GateOutcome where
  | pass
  | errEmail
  | errCompany
  | errRows
deriving DecidableEq, Repr

/-- The Review Forecast handler: validate email, company and the row list in
that order; on the first failure report it and leave the session untouched;
on success lock every existing row and move to the review page. -/
def review_button (s : Session) : Session × GateOutcome :=
  if pyStrip s.email = "" then (s, GateOutcome.errEmail)
  else if pyStrip s.company = "" then (s, GateOutcome.errCompany)
  else if s.product_entries.isEmpty then (s, GateOutcome.errRows)
  else ({ s with locked_rows := s.product_entries.length, page := "review" },
        GateOutcome.pass)

/-- The product-row loop of render_form_page: rows are processed in order,
row i reading and writing the canonical index row_idx_i. -/
def processRows (catalog : Catalog) (locked_rows : Nat)
    (inputs : Nat → RowInput) :
    Nat → (Nat → Option Nat) → List Entry →
      List Entry × (Nat → Option Nat)
  | _, canon, [] => ([], canon)
  | i, canon, e :: rest =>
    let r := renderRow catalog locked_rows i e (canon i) (inputs i)
    let canon1 := fun j => if j = i then r.canonical else canon j
    let step := processRows catalog locked_rows inputs (i + 1) canon1 rest
    (r.entry :: step.1, step.2)

/-- The widget values feeding one render of the form page. -/
structure FormInputs where
  country : String
  email : String
  company : String
  add_row_clicked : Bool
  row_widgets : Nat → RowInput
  review_clicked : Bool

/-- One full render of the form page: store the user fields, replenish an
empty row list, honour the add-row button, process every row, and evaluate
the review gate when its button was clicked.  Returns the session, the
updated canonical indices, and the gate outcome when the gate ran. -/
def render_form_page (catalog : Catalog) (s : Session)
    (canon : Nat → Option Nat) (fi : FormInputs) :
    Session × (Nat → Option Nat) × Option GateOutcome :=
  let s1 := { s with country := fi.country, email := fi.email,
                     company := fi.company }
  let entries0 := ensure_entry_list_length s1.product_entries
  let entries1 := if fi.add_row_clicked then entries0 ++ [default_entry]
    else entries0
  let step := processRows catalog s1.locked_rows fi.row_widgets 0 canon entries1
  let s2 := { s1 with product_entries := step.1 }
  if fi.review_clicked then
    let gate := review_button s2
    (gate.1, step.2, some gate.2)
  else (s2, step.2, none)

/-- The Go Back and Edit button of the review page (lines 430-432): return to
the form page, keeping locked_rows (and everything else) as is. -/
def go_back_edit (s : Session) : Session := { s with page := "form" }

/-- The fixed header row written to the Google sheet on first submit. -/
def sheet_header : List String :=
  ["Timestamp", "User ID", "Email", "Country", "Company", "Product Group",
   "Product Name", "Product Code", "Description"] ++ MONTH_LIST ++ ["Total"]

/-- One appended sheet row for one entry (lines 468-483): timestamp, user id,
email, country, company, group, name, code, detail, the twelve month values,
total. -/
def entry_sheet_row (s : Session) (user_id timestamp : String) (e : Entry) :
    List String :=
  [timestamp, user_id, s.email, s.country, s.company,
   e.group.getD "", e.name.getD "", e.code.getD "", e.detail.getD ""]
  ++ ((List.range 12).map (fun j => toString (e.months.getD j 0)))
  ++ [toString e.total]

/-- submit_to_google: write the header when the sheet is empty, then append
one row per entry.  Only the sheet is written; the session is not touched. -/
def submit_to_google (sheet : List (List String)) (s : Session)
    (user_id timestamp : String) : List (List String) :=
  let sheet1 := if sheet.isEmpty then sheet ++ [sheet_header] else sheet
  sheet1 ++ s.product_entries.map (entry_sheet_row s user_id timestamp)

/-- The Submit Forecast button handler (lines 434-438): call
submit_to_google and show a success message.  No session field is assigned,
so the session comes back unchanged next to the grown sheet. -/
def submit_button (sheet : List (List String)) (s : Session)
    (user_id timestamp : String) : Session × List (List String) :=
  (s, submit_to_google sheet s user_id timestamp)

/-- One render of one row seen as a state transformer on the pair of the
stored entry and the canonical index. -/
def renderRowStep (catalog : Catalog) (locked_rows i : Nat)
    (p : Entry × Option Nat) (inp : RowInput) : Entry × Option Nat :=
  ((renderRow catalog locked_rows i p.1 p.2 inp).entry,
   (renderRow catalog locked_rows i p.1 p.2 inp).canonical)

/-- Iterated renders of one row: fold renderRow over a list of per-render
widget states, threading the entry and the canonical index. -/
def renderRowIter (catalog : Catalog) (locked_rows i : Nat)
    (start : Entry × Option Nat) (inps : List RowInput) :
    Entry × Option Nat :=
  inps.foldl (renderRowStep catalog locked_rows i) start

/-! ## Supporting lemmas -/

lemma readMonths_length (em : List Nat) (ms : List (Option Nat)) :
    (readMonths em ms).length = 12 := by
  simp [readMonths]

lemma readMonths_getElem? (em : List Nat) (ms : List (Option Nat)) (n : Nat) :
    (readMonths em ms)[n]?
      = if n < 12 then some (numberInput (em.getD n 0) (ms.getD n none))
        else none := by
  unfold readMonths
  by_cases h : n < 12
  · rw [List.getElem?_map, List.getElem?_range h]
    simp [h]
  · rw [List.getElem?_map, List.getElem?_eq_none (by simpa using Nat.le_of_not_lt h)]
    simp [h]

lemma readMonths_idem (em : List Nat) (ms : List (Option Nat)) :
    readMonths (readMonths em ms) ms = readMonths em ms := by
  apply List.ext_getElem?
  intro n
  rw [readMonths_getElem?, readMonths_getElem?]
  by_cases h : n < 12
  · simp only [h, if_true]
    cases hv : ms.getD n none with
    | some v => simp [numberInput, hv]
    | none =>
      have hv2 : ms[n]?.getD none = none := by
        rw [← List.getD_eq_getElem?_getD]
        exact hv
      simp only [numberInput]
      rw [List.getD_eq_getElem?_getD, readMonths_getElem?]
      simp [h, numberInput, hv, hv2]
  · simp [h]

lemma headD_mem {α : Type} (l : List α) (d : α) (h : l ≠ []) :
    l.headD d ∈ l := by
  cases l with
  | nil => exact absurd rfl h
  | cons a t => simp [List.headD]

lemma head_getD_mem {α : Type} (l : List α) (d : α) (h : l ≠ []) :
    l.head?.getD d ∈ l := by
  cases l with
  | nil => exact absurd rfl h
  | cons a t => simp [List.head?]

lemma mem_insertSorted (x a : String) (l : List String) :
    x ∈ insertSorted a l ↔ x = a ∨ x ∈ l := by
  induction l with
  | nil => simp [insertSorted]
  | cons y ys ih =>
    unfold insertSorted
    by_cases h : strLe a y = true
    · simp [h]
    · simp [h, ih]
      tauto

lemma mem_sortedStrings (x : String) (l : List String) :
    x ∈ sortedStrings l ↔ x ∈ l := by
  induction l with
  | nil => simp [sortedStrings]
  | cons y ys ih => simp [sortedStrings, mem_insertSorted, ih]

lemma mem_product_groups (catalog : Catalog) (g : String) :
    g ∈ product_groups catalog
      ↔ g ∈ catalog.map (fun r => r.productGroup) := by
  simp [product_groups, mem_sortedStrings, List.mem_dedup]

lemma product_groups_ne_nil (catalog : Catalog) (h : catalog ≠ []) :
    product_groups catalog ≠ [] := by
  cases catalog with
  | nil => exact absurd rfl h
  | cons r rest =>
    intro hnil
    have : r.productGroup ∈ product_groups (r :: rest) :=
      (mem_product_groups _ _).mpr (by simp)
    rw [hnil] at this
    exact absurd this (List.not_mem_nil _)

lemma current_group_mem (catalog : Catalog) (entry : Entry)
    (h : product_groups catalog ≠ []) :
    (match entry.group with
     | some g => if g ∈ product_groups catalog then g
                 else (product_groups catalog).headD ""
     | none => (product_groups catalog).headD "") ∈ product_groups catalog := by
  cases hg : entry.group with
  | some g =>
    by_cases hm : g ∈ product_groups catalog
    · simpa [hm] using hm
    · simp only [hm, if_false]
      exact headD_mem _ _ h
  | none => exact headD_mem _ _ h

lemma resolve_group_mem (catalog : Catalog) (entry : Entry)
    (gs : Option String) (h : product_groups catalog ≠ []) :
    resolve_group catalog entry gs ∈ product_groups catalog := by
  have hcur := current_group_mem catalog entry h
  unfold resolve_group selectboxStr
  cases gs with
  | some v =>
    by_cases hv : v ∈ product_groups catalog
    · simpa [hv] using hv
    · simpa [hv] using hcur
  | none => simpa using hcur

lemma resolve_groupE_nil (entry : Entry) (gs : Option String) :
    resolve_groupE [] entry gs = none := by
  unfold resolve_groupE
  cases hg : entry.group with
  | some g => simp [product_groups, sortedStrings]
  | none => rfl

lemma resolve_groupE_ok (catalog : Catalog) (entry : Entry)
    (gs : Option String) (h : catalog ≠ []) :
    resolve_groupE catalog entry gs
      = some (resolve_group catalog entry gs) := by
  have hpgs := product_groups_ne_nil catalog h
  unfold resolve_groupE resolve_group
  cases hg : entry.group with
  | some g =>
    by_cases hm : g ∈ product_groups catalog
    · simp [hm]
    · cases hp : product_groups catalog with
      | nil => exact absurd hp hpgs
      | cons p0 ps =>
        rw [hp] at hm
        simp only [List.mem_cons] at hm
        simp [hm, hp]
  | none =>
    cases hp : product_groups catalog with
    | nil => exact absurd hp hpgs
    | cons p0 ps => simp [hp]

lemma filteredFrom_ne_nil (catalog : Catalog) (g : String)
    (r : CatalogRecord) (hr : r ∈ catalog) (hg : r.productGroup = g) :
    ∀ i, filteredFrom catalog i g ≠ [] := by
  induction catalog with
  | nil => exact absurd hr (List.not_mem_nil _)
  | cons hd tl ih =>
    intro i
    unfold filteredFrom
    by_cases h : hd.productGroup = g
    · simp [h]
    · simp only [h, if_false]
      rcases List.mem_cons.mp hr with he | ht
      · exact absurd (he ▸ hg) h
      · exact ih ht (i + 1)

lemma get_filtered_df_ne_nil (catalog : Catalog) (g : String)
    (h : g ∈ catalog.map (fun r => r.productGroup)) :
    get_filtered_df catalog g ≠ [] := by
  rcases List.mem_map.mp h with ⟨r, hr, hg⟩
  exact filteredFrom_ne_nil catalog g r hr hg 0

lemma renderEditableRow_empty (catalog : Catalog) (entry : Entry)
    (canonical : Option Nat) (gs : Option String) (ns ds : Option Nat)
    (ms : List (Option Nat))
    (h : get_filtered_df catalog (resolve_group catalog entry gs) = []) :
    renderEditableRow catalog entry canonical gs ns ds ms
      = { entry := entry, canonical := canonical, warning := true } := by
  unfold renderEditableRow
  simp [h]

lemma renderEditableRow_core (catalog : Catalog) (entry : Entry)
    (canonical : Option Nat) (gs : Option String) (ns ds : Option Nat)
    (ms : List (Option Nat))
    (h : get_filtered_df catalog (resolve_group catalog entry gs) ≠ []) :
    renderEditableRow catalog entry canonical gs ns ds ms
      = reconcileCore (get_filtered_df catalog (resolve_group catalog entry gs))
          (resolve_group catalog entry gs) entry canonical ns ds ms := by
  unfold renderEditableRow
  rw [if_neg]
  simp [List.isEmpty_iff, h]

lemma selectboxNat_mem (options : List Nat) (d : Nat) (st : Option Nat)
    (hd : d ∈ options) : selectboxNat options d st ∈ options := by
  unfold selectboxNat
  cases st with
  | some v =>
    by_cases hv : v ∈ options
    · simp [hv]
    · simp [hv, hd]
  | none => exact hd

lemma selectboxNat_stable (options : List Nat) (d : Nat) (st : Option Nat) :
    selectboxNat options (selectboxNat options d st) st
      = selectboxNat options d st := by
  unfold selectboxNat
  cases st with
  | some v =>
    by_cases hv : v ∈ options
    · simp [hv]
    · simp [hv]
  | none => rfl

lemma find_row_index_mem (filtered : List (Nat × CatalogRecord))
    (entry : Entry) (h : filtered ≠ []) :
    ∃ j, find_row_index filtered entry = some j
      ∧ j ∈ filtered.map Prod.fst := by
  cases filtered with
  | nil => exact absurd rfl h
  | cons first rest =>
    unfold find_row_index
    cases h1 : (first :: rest).find?
        (fun p => decide (entry.code = some p.2.productCode)) with
    | some p =>
      exact ⟨p.1, rfl,
        List.mem_map.mpr ⟨p, List.mem_of_find?_eq_some h1, rfl⟩⟩
    | none =>
      cases h2 : (first :: rest).find?
          (fun p => decide (entry.name = some p.2.productName)) with
      | some p =>
        exact ⟨p.1, rfl,
          List.mem_map.mpr ⟨p, List.mem_of_find?_eq_some h2, rfl⟩⟩
      | none =>
        cases h3 : (first :: rest).find?
            (fun p => decide (entry.detail = some p.2.description)) with
        | some p =>
          exact ⟨p.1, rfl,
            List.mem_map.mpr ⟨p, List.mem_of_find?_eq_some h3, rfl⟩⟩
        | none => exact ⟨first.1, rfl, by simp⟩

lemma prevIdx_mem (filtered : List (Nat × CatalogRecord)) (entry : Entry)
    (canonical : Option Nat) (h : filtered ≠ []) :
    prevIdx filtered entry canonical ∈ filtered.map Prod.fst := by
  have hopt : filtered.map Prod.fst ≠ [] := by
    simp [List.map_eq_nil_iff, h]
  cases canonical with
  | some v =>
    simp only [prevIdx, Option.getD_some]
    by_cases hv : v ∈ filtered.map Prod.fst
    · simpa [hv] using hv
    · simp only [hv, if_false]
      exact headD_mem _ _ hopt
  | none =>
    rcases find_row_index_mem filtered entry h with ⟨j, hj, hjm⟩
    simp only [prevIdx, Option.getD_none, hj, Option.getD_some, if_pos hjm]
    exact hjm

lemma prevIdx_canonical_mem (filtered : List (Nat × CatalogRecord))
    (entry : Entry) (v : Nat) (hv : v ∈ filtered.map Prod.fst) :
    prevIdx filtered entry (some v) = v := by
  simp [prevIdx, Option.getD, hv]

lemma newIdx_mem (filtered : List (Nat × CatalogRecord)) (entry : Entry)
    (canonical : Option Nat) (ns ds : Option Nat) (h : filtered ≠ []) :
    newIdx filtered entry canonical ns ds ∈ filtered.map Prod.fst := by
  have hprev := prevIdx_mem filtered entry canonical h
  have hn := selectboxNat_mem (filtered.map Prod.fst)
    (prevIdx filtered entry canonical) ns hprev
  have hd := selectboxNat_mem (filtered.map Prod.fst)
    (prevIdx filtered entry canonical) ds hprev
  simp only [newIdx]
  split
  · exact hn
  · split
    · exact hd
    · exact hprev

lemma newIdx_aligned (filtered : List (Nat × CatalogRecord)) (entry : Entry)
    (canonical : Option Nat) (ns : Option Nat) :
    newIdx filtered entry canonical ns ns
      = selectboxNat (filtered.map Prod.fst)
          (prevIdx filtered entry canonical) ns := by
  unfold newIdx
  by_cases h : selectboxNat (filtered.map Prod.fst)
      (prevIdx filtered entry canonical) ns
      = prevIdx filtered entry canonical
  · simp [h]
  · simp [h]

lemma resolve_group_valid (catalog : Catalog) (entry : Entry) (v : String)
    (hv : v ∈ product_groups catalog) :
    resolve_group catalog entry (some v) = v := by
  unfold resolve_group selectboxStr
  simp [hv]

lemma resolve_group_stable (catalog : Catalog) (e E : Entry)
    (gs : Option String) (hpgs : product_groups catalog ≠ [])
    (hE : E.group = some (resolve_group catalog e gs)) :
    resolve_group catalog E gs = resolve_group catalog e gs := by
  have hg1 : resolve_group catalog e gs ∈ product_groups catalog :=
    resolve_group_mem catalog e gs hpgs
  cases gs with
  | some v =>
    by_cases hv : v ∈ product_groups catalog
    · rw [resolve_group_valid catalog E v hv, resolve_group_valid catalog e v hv]
    · have hcur : resolve_group catalog E (some v)
          = (match E.group with
             | some g => if g ∈ product_groups catalog then g
                         else (product_groups catalog).headD ""
             | none => (product_groups catalog).headD "") := by
        unfold resolve_group selectboxStr
        simp [hv]
      rw [hcur, hE]
      simp [hg1]
  | none =>
    have hcur : resolve_group catalog E none
        = (match E.group with
           | some g => if g ∈ product_groups catalog then g
                       else (product_groups catalog).headD ""
           | none => (product_groups catalog).headD "") := by
      unfold resolve_group selectboxStr
      rfl
    rw [hcur, hE]
    simp [hg1]

lemma filteredFrom_find_head (g : String) (r : CatalogRecord) :
    ∀ (catalog : Catalog) (i : Nat),
      catalog.find? (fun q => decide (q.productGroup = g)) = some r →
      ∃ j rest, filteredFrom catalog i g = (j, r) :: rest := by
  intro catalog
  induction catalog with
  | nil => intro i hf; simp at hf
  | cons hd tl ih =>
    intro i hf
    by_cases h : hd.productGroup = g
    · rw [List.find?_cons_of_pos _ (by simp [h])] at hf
      have hr : hd = r := by injection hf
      subst hr
      exact ⟨i, filteredFrom tl (i + 1) g,
        by simp only [filteredFrom]; rw [if_pos h]⟩
    · rw [List.find?_cons_of_neg _ (by simp [h])] at hf
      obtain ⟨j, rest, hj⟩ := ih (i + 1) hf
      exact ⟨j, rest, by simp only [filteredFrom]; rw [if_neg h]; exact hj⟩

lemma find_row_index_fallback (first : Nat × CatalogRecord)
    (rest : List (Nat × CatalogRecord)) (entry : Entry)
    (hcode : ∀ p ∈ first :: rest, entry.code ≠ some p.2.productCode)
    (hname : ∀ p ∈ first :: rest, entry.name ≠ some p.2.productName)
    (hdetail : ∀ p ∈ first :: rest, entry.detail ≠ some p.2.description) :
    find_row_index (first :: rest) entry = some first.1 := by
  have h1 : (first :: rest).find?
      (fun p => decide (entry.code = some p.2.productCode)) = none :=
    List.find?_eq_none.mpr (fun p hp => by simpa using hcode p hp)
  have h2 : (first :: rest).find?
      (fun p => decide (entry.name = some p.2.productName)) = none :=
    List.find?_eq_none.mpr (fun p hp => by simpa using hname p hp)
  have h3 : (first :: rest).find?
      (fun p => decide (entry.detail = some p.2.description)) = none :=
    List.find?_eq_none.mpr (fun p hp => by simpa using hdetail p hp)
  unfold find_row_index
  rw [h1, h2, h3]

lemma lookupRecord_head (j : Nat) (r : CatalogRecord)
    (rest : List (Nat × CatalogRecord)) :
    lookupRecord ((j, r) :: rest) j = r := by
  unfold lookupRecord
  rw [List.find?_cons_of_pos _ (by simp)]
  rfl

lemma ensure_entry_list_length_ne_nil (es : List Entry) :
    ensure_entry_list_length es ≠ [] := by
  unfold ensure_entry_list_length
  by_cases h : es = [] <;> simp [h]

lemma review_button_ne_errRows (s : Session) (h : s.product_entries ≠ []) :
    (review_button s).2 ≠ GateOutcome.errRows := by
  unfold review_button
  by_cases h1 : pyStrip s.email = ""
  · simp [h1]
  · by_cases h2 : pyStrip s.company = ""
    · simp [h1, h2]
    · have h3 : s.product_entries.isEmpty = false := by
        simp [List.isEmpty_iff, h]
      simp [h1, h2, h3]

lemma processRows_length (catalog : Catalog) (lr : Nat)
    (inputs : Nat → RowInput) :
    ∀ (es : List Entry) (i : Nat) (canon : Nat → Option Nat),
      (processRows catalog lr inputs i canon es).1.length = es.length := by
  intro es
  induction es with
  | nil => intro i canon; rfl
  | cons e rest ih =>
    intro i canon
    unfold processRows
    simp only [List.length_cons]
    rw [ih]

/-! ## Claim theorems -/

/-- Claim C2: for every row at every render, locked or editable, the total field
stored back into the entry equals the sum of the twelve month quantity
values read on that render (and the stored month list has exactly twelve
entries).  The catalog is non-empty, as it is for the loaded product CSV,
so the group selectbox always has options and the filtered frame of the
chosen group is never empty. -/
theorem row_total_eq_month_sum (catalog : Catalog) (lr i : Nat)
    (entry : Entry) (canonical : Option Nat) (inp : RowInput)
    (hcat : catalog ≠ []) :
    ((renderRow catalog lr i entry canonical inp).entry).total
      = ((renderRow catalog lr i entry canonical inp).entry).months.sum
    ∧ ((renderRow catalog lr i entry canonical inp).entry).months.length
        = 12 := by
  unfold renderRow
  by_cases hi : i < lr
  · rw [if_pos hi]
    exact ⟨rfl, readMonths_length _ _⟩
  · rw [if_neg hi]
    have hpgs := product_groups_ne_nil catalog hcat
    have hmem := resolve_group_mem catalog entry inp.groupState hpgs
    have hne : get_filtered_df catalog
        (resolve_group catalog entry inp.groupState) ≠ [] :=
      get_filtered_df_ne_nil _ _ ((mem_product_groups _ _).mp hmem)
    rw [renderEditableRow_core _ _ _ _ _ _ _ hne]
    exact ⟨rfl, readMonths_length _ _⟩

/-- Witness for C2: a one-record catalog, an editable row, month widgets
holding 5 and 3. -/
theorem row_total_eq_month_sum_witness :
    ([⟨"G", "N1", "D1", "C1"⟩] : Catalog) ≠ []
    ∧ ((renderRow [⟨"G", "N1", "D1", "C1"⟩] 0 0 default_entry none
          ⟨none, none, none, [some 5, some 3]⟩).entry).total
        = ((renderRow [⟨"G", "N1", "D1", "C1"⟩] 0 0 default_entry none
          ⟨none, none, none, [some 5, some 3]⟩).entry).months.sum :=
  ⟨by decide,
   (row_total_eq_month_sum [⟨"G", "N1", "D1", "C1"⟩] 0 0 default_entry none
      ⟨none, none, none, [some 5, some 3]⟩ (by decide)).1⟩

/-- Claim C3: the review gate passes exactly when the trimmed email is non-empty,
the trimmed company is non-empty and the row list is non-empty; the first
failing condition, in that order, is the one reported; on failure the
session is returned untouched; on success the page moves to review and no
entered data is cleared. -/
theorem review_gate_spec (s : Session) :
    ((review_button s).2 = GateOutcome.pass ↔
      (pyStrip s.email ≠ "" ∧ pyStrip s.company ≠ ""
        ∧ s.product_entries ≠ []))
    ∧ ((review_button s).2 = GateOutcome.errEmail ↔ pyStrip s.email = "")
    ∧ ((review_button s).2 = GateOutcome.errCompany ↔
        (pyStrip s.email ≠ "" ∧ pyStrip s.company = ""))
    ∧ ((review_button s).2 = GateOutcome.errRows ↔
        (pyStrip s.email ≠ "" ∧ pyStrip s.company ≠ ""
          ∧ s.product_entries = []))
    ∧ ((review_button s).2 ≠ GateOutcome.pass → (review_button s).1 = s)
    ∧ ((review_button s).2 = GateOutcome.pass →
        (review_button s).1.page = "review"
        ∧ (review_button s).1.email = s.email
        ∧ (review_button s).1.company = s.company
        ∧ (review_button s).1.country = s.country
        ∧ (review_button s).1.product_entries = s.product_entries) := by
  unfold review_button
  by_cases h1 : pyStrip s.email = "" <;>
    by_cases h2 : pyStrip s.company = "" <;>
      by_cases h3 : s.product_entries = [] <;>
        simp [h1, h2, h3, List.isEmpty_iff]

/-- Witness for C3: a filled session passes the gate and lands on the
review page. -/
theorem review_gate_spec_witness :
    (review_button ⟨"form", [default_entry], "a@b", "ACME", "CA", 0⟩).2
        = GateOutcome.pass
    ∧ (review_button ⟨"form", [default_entry], "a@b", "ACME", "CA", 0⟩).1.page
        = "review" :=
  ⟨(review_gate_spec ⟨"form", [default_entry], "a@b", "ACME", "CA", 0⟩).1.mpr
      (by decide),
   ((review_gate_spec ⟨"form", [default_entry], "a@b", "ACME", "CA", 0⟩
      ).2.2.2.2.2
      ((review_gate_spec ⟨"form", [default_entry], "a@b", "ACME", "CA", 0⟩
        ).1.mpr (by decide))).1⟩

/-- Claim C4: a locked row keeps its group, name, detail and code byte-identical
across any number of subsequent renders; only the month quantities and the
total can change. -/
theorem locked_row_identity_frozen (catalog : Catalog) (lr i : Nat)
    (h : i < lr) (e : Entry) (c : Option Nat) (inps : List RowInput) :
    (renderRowIter catalog lr i (e, c) inps).1.group = e.group
    ∧ (renderRowIter catalog lr i (e, c) inps).1.name = e.name
    ∧ (renderRowIter catalog lr i (e, c) inps).1.detail = e.detail
    ∧ (renderRowIter catalog lr i (e, c) inps).1.code = e.code := by
  induction inps generalizing e c with
  | nil => exact ⟨rfl, rfl, rfl, rfl⟩
  | cons inp rest ih =>
    have hstep : renderRowStep catalog lr i (e, c) inp
        = (renderLockedRow e inp.monthStates, c) := by
      unfold renderRowStep renderRow
      rw [if_pos h]
    have hiter : renderRowIter catalog lr i (e, c) (inp :: rest)
        = renderRowIter catalog lr i (renderLockedRow e inp.monthStates, c)
            rest := by
      unfold renderRowIter
      rw [List.foldl_cons, hstep]
    rw [hiter]
    exact ih (renderLockedRow e inp.monthStates) c

/-- Witness for C4: a locked row with two further renders that change the
months. -/
theorem locked_row_identity_frozen_witness :
    (0 : Nat) < 1
    ∧ (renderRowIter [] 1 0
        (⟨some "G", some "N", some "D", some "C", List.replicate 12 0, 0⟩,
          none)
        [⟨none, none, none, [some 7]⟩, ⟨none, none, none, [some 2, some 9]⟩]
      ).1.code = some "C" :=
  ⟨by decide,
   (locked_row_identity_frozen [] 1 0 (by decide)
      ⟨some "G", some "N", some "D", some "C", List.replicate 12 0, 0⟩ none
      [⟨none, none, none, [some 7]⟩,
       ⟨none, none, none, [some 2, some 9]⟩]).2.2.2⟩

/-- Claim C8 counterexample: the only inputs on which a group's filtered
frame is empty are those of the empty catalog (at the concrete input below,
the frame of every group, here "", is empty), and there the render raises
IndexError at line 286 (product_groups[0]) instead of surfacing the warning
and leaving the row unchanged - so "no error is raised" fails at the inputs
the claim covers. -/
theorem catalog_gap_claim_cex :
    get_filtered_df ([] : Catalog) "" = []
    ∧ renderEditableRowE [] default_entry none none none none []
        = RenderOutcome.indexError
    ∧ renderEditableRowE [] default_entry none none none none []
        ≠ RenderOutcome.ok
            { entry := default_entry, canonical := none, warning := true } := by
  refine ⟨rfl, by decide, by decide⟩

/-- Claim C8 amended: the warning/skip branch at lines 297-299 is dead code
in this source.  A render of an editable row either raises IndexError at
line 286 - exactly when the catalog is empty - or resolves a group that is
present in the catalog, whose filtered frame is therefore non-empty, and
finalizes the row through the reconciliation core without the warning. -/
theorem catalog_gap_branch_dead (catalog : Catalog) (entry : Entry)
    (canonical : Option Nat) (gs : Option String) (ns ds : Option Nat)
    (ms : List (Option Nat)) :
    (catalog = []
      ∧ renderEditableRowE catalog entry canonical gs ns ds ms
          = RenderOutcome.indexError)
    ∨ (catalog ≠ []
      ∧ get_filtered_df catalog (resolve_group catalog entry gs) ≠ []
      ∧ renderEditableRowE catalog entry canonical gs ns ds ms
          = RenderOutcome.ok
              (reconcileCore
                (get_filtered_df catalog (resolve_group catalog entry gs))
                (resolve_group catalog entry gs) entry canonical ns ds
                ms)) := by
  by_cases hc : catalog = []
  · left
    refine ⟨hc, ?_⟩
    subst hc
    unfold renderEditableRowE
    rw [resolve_groupE_nil]
  · right
    have hpgs := product_groups_ne_nil catalog hc
    have hmem := resolve_group_mem catalog entry gs hpgs
    have hne : get_filtered_df catalog
        (resolve_group catalog entry gs) ≠ [] :=
      get_filtered_df_ne_nil _ _ ((mem_product_groups _ _).mp hmem)
    have hemp : (get_filtered_df catalog
        (resolve_group catalog entry gs)).isEmpty = false := by
      simp [List.isEmpty_iff, hne]
    refine ⟨hc, hne, ?_⟩
    unfold renderEditableRowE
    rw [resolve_groupE_ok catalog entry gs hc]
    simp [hemp]

/-- Claim C9: on every render of the form page the row list is replenished before
the gate runs (an empty list receives one default row with unset triple,
twelve zero months and zero total), so the rows-empty failure of the review
gate is unreachable from the form page. -/
theorem form_page_gate_rows_error_unreachable (catalog : Catalog)
    (s : Session) (canon : Nat → Option Nat) (fi : FormInputs) :
    (render_form_page catalog s canon fi).2.2 ≠ some GateOutcome.errRows
    ∧ ensure_entry_list_length [] = [default_entry]
    ∧ default_entry.group = none ∧ default_entry.name = none
    ∧ default_entry.detail = none ∧ default_entry.code = none
    ∧ default_entry.months = List.replicate 12 0
    ∧ default_entry.total = 0 := by
  refine ⟨?_, by decide, rfl, rfl, rfl, rfl, rfl, rfl⟩
  have h1 : (if fi.add_row_clicked then
        ensure_entry_list_length s.product_entries ++ [default_entry]
      else ensure_entry_list_length s.product_entries) ≠ [] := by
    by_cases ha : fi.add_row_clicked <;>
      simp [ha, ensure_entry_list_length_ne_nil]
  have h2 : (processRows catalog s.locked_rows fi.row_widgets 0 canon
      (if fi.add_row_clicked then
        ensure_entry_list_length s.product_entries ++ [default_entry]
      else ensure_entry_list_length s.product_entries)).1 ≠ [] := by
    intro hnil
    have hlen := processRows_length catalog s.locked_rows fi.row_widgets
      (if fi.add_row_clicked then
        ensure_entry_list_length s.product_entries ++ [default_entry]
      else ensure_entry_list_length s.product_entries) 0 canon
    rw [hnil] at hlen
    exact h1 (List.length_eq_zero.mp hlen.symm)
  simp only [render_form_page]
  cases hrc : fi.review_clicked with
  | false => simp
  | true =>
    simp only [if_true]
    intro hcontra
    refine review_button_ne_errRows
      { page := s.page,
        product_entries := (processRows catalog s.locked_rows fi.row_widgets
          0 canon
          (if fi.add_row_clicked then
            ensure_entry_list_length s.product_entries ++ [default_entry]
           else ensure_entry_list_length s.product_entries)).1,
        email := fi.email,
        company := fi.company,
        country := fi.country,
        locked_rows := s.locked_rows }
      h2 ?_
    injection hcontra

/-- Claim C6 counterexample: submitting a session with one forecast row leaves the
row list exactly as it was, non-empty; no code path clears product_entries
on submission. -/
theorem submit_leaves_rows_intact_cex :
    (submit_button []
        ⟨"review",
         [⟨some "G", some "N", some "D", some "C", List.replicate 12 1, 12⟩],
         "a@b", "ACME", "CA", 1⟩ "uid" "ts").1.product_entries
      = [⟨some "G", some "N", some "D", some "C", List.replicate 12 1, 12⟩]
    ∧ (submit_button []
        ⟨"review",
         [⟨some "G", some "N", some "D", some "C", List.replicate 12 1, 12⟩],
         "a@b", "ACME", "CA", 1⟩ "uid" "ts").1.product_entries ≠ [] := by
  constructor
  · rfl
  · decide

/-- Claim C6 amended: on submission the forecast rows are appended to the sheet
(after a header when the sheet was empty), and the whole session — its row
list included — is returned unchanged; the row list is never cleared. -/
theorem submit_preserves_session_rows (sheet : List (List String))
    (s : Session) (uid ts : String) :
    (submit_button sheet s uid ts).1 = s
    ∧ (submit_button sheet s uid ts).2.length
      = (if sheet.isEmpty then sheet.length + 1 else sheet.length)
        + s.product_entries.length := by
  refine ⟨rfl, ?_⟩
  unfold submit_button submit_to_google
  by_cases h : sheet.isEmpty
  · simp [h]
    omega
  · simp [h]

/-- Claim C10: the locked rows are exactly the prefix of length locked_rows: the
review gate sets locked_rows to the full list length when it passes; the Go
Back and Edit button preserves locked_rows and the row list; a row renders
through the locked branch exactly when its index is below locked_rows; and
the row appended at the end of the list after returning from review (index
= current length) renders as editable whenever locked_rows is at most the
list length, which the gate guarantees. -/
theorem locked_prefix_discipline (catalog : Catalog) (s : Session) (i : Nat)
    (e : Entry) (c : Option Nat) (inp : RowInput) :
    ((review_button s).2 = GateOutcome.pass →
      (review_button s).1.locked_rows
        = (review_button s).1.product_entries.length)
    ∧ ((go_back_edit s).locked_rows = s.locked_rows
       ∧ (go_back_edit s).product_entries = s.product_entries
       ∧ (go_back_edit s).page = "form")
    ∧ (i < s.locked_rows →
        renderRow catalog s.locked_rows i e c inp
          = { entry := renderLockedRow e inp.monthStates, canonical := c,
              warning := false })
    ∧ (s.locked_rows ≤ i →
        renderRow catalog s.locked_rows i e c inp
          = renderEditableRow catalog e c inp.groupState inp.nameState
              inp.detailState inp.monthStates)
    ∧ (s.locked_rows ≤ s.product_entries.length →
        renderRow catalog s.locked_rows s.product_entries.length e c inp
          = renderEditableRow catalog e c inp.groupState inp.nameState
              inp.detailState inp.monthStates) := by
  refine ⟨?_, ⟨rfl, rfl, rfl⟩, ?_, ?_, ?_⟩
  · intro hp
    unfold review_button at hp ⊢
    by_cases h1 : pyStrip s.email = ""
    · simp [h1] at hp
    · by_cases h2 : pyStrip s.company = ""
      · simp [h1, h2] at hp
      · by_cases h3 : s.product_entries.isEmpty
        · simp [h1, h2, h3] at hp
        · simp [h1, h2, h3]
  · intro hi
    unfold renderRow
    rw [if_pos hi]
  · intro hi
    unfold renderRow
    rw [if_neg (Nat.not_lt.mpr hi)]
  · intro hle
    unfold renderRow
    rw [if_neg (Nat.not_lt.mpr hle)]

/-- Witness for C10: with one row and locked_rows 1, the gate pass locks the
full list, index 0 renders locked and index 1 (the appended position)
renders editable. -/
theorem locked_prefix_discipline_witness :
    (review_button ⟨"form", [default_entry], "a@b", "ACME", "CA", 1⟩
        ).1.locked_rows
      = (review_button ⟨"form", [default_entry], "a@b", "ACME", "CA", 1⟩
        ).1.product_entries.length
    ∧ renderRow [] 1 0 default_entry none ⟨none, none, none, []⟩
        = { entry := renderLockedRow default_entry [], canonical := none,
            warning := false }
    ∧ renderRow [] 1 1 default_entry none ⟨none, none, none, []⟩
        = renderEditableRow [] default_entry none none none none [] :=
  ⟨(locked_prefix_discipline []
      ⟨"form", [default_entry], "a@b", "ACME", "CA", 1⟩ 0 default_entry none
      ⟨none, none, none, []⟩).1 (by decide),
   (locked_prefix_discipline []
      ⟨"form", [default_entry], "a@b", "ACME", "CA", 1⟩ 0 default_entry none
      ⟨none, none, none, []⟩).2.2.1 (by decide),
   (locked_prefix_discipline []
      ⟨"form", [default_entry], "a@b", "ACME", "CA", 1⟩ 1 default_entry none
      ⟨none, none, none, []⟩).2.2.2.1 (by decide)⟩

/-- Claim C1: when an editable row's group selector is changed to a new group in
which the stored name, description and code do not occur (and the stale
canonical index and selector states do not point into the new group, their
old indices belonging to other groups), the row is reset to the first
record of that group in catalog source order — the record found by find? on
the source list — and the code is taken from that same record. -/
theorem group_change_resets_to_first_source_record (catalog : Catalog)
    (entry : Entry) (canonical : Option Nat) (gNew : String)
    (nameState detailState : Option Nat) (monthStates : List (Option Nat))
    (r : CatalogRecord)
    (hfind : catalog.find? (fun q => decide (q.productGroup = gNew)) = some r)
    (hcode : ∀ p ∈ get_filtered_df catalog gNew,
      entry.code ≠ some p.2.productCode)
    (hname : ∀ p ∈ get_filtered_df catalog gNew,
      entry.name ≠ some p.2.productName)
    (hdetail : ∀ p ∈ get_filtered_df catalog gNew,
      entry.detail ≠ some p.2.description)
    (hcanon : ∀ v ∈ canonical,
      v ∉ (get_filtered_df catalog gNew).map Prod.fst)
    (hns : ∀ v ∈ nameState,
      v ∉ (get_filtered_df catalog gNew).map Prod.fst)
    (hds : ∀ v ∈ detailState,
      v ∉ (get_filtered_df catalog gNew).map Prod.fst) :
    (renderEditableRow catalog entry canonical (some gNew) nameState
        detailState monthStates).entry.group = some gNew
    ∧ (renderEditableRow catalog entry canonical (some gNew) nameState
        detailState monthStates).entry.name = some r.productName
    ∧ (renderEditableRow catalog entry canonical (some gNew) nameState
        detailState monthStates).entry.detail = some r.description
    ∧ (renderEditableRow catalog entry canonical (some gNew) nameState
        detailState monthStates).entry.code = some r.productCode
    ∧ (renderEditableRow catalog entry canonical (some gNew) nameState
        detailState monthStates).warning = false := by
  have hrmem : r ∈ catalog := List.mem_of_find?_eq_some hfind
  have hrg : r.productGroup = gNew := by simpa using List.find?_some hfind
  have hgmem : gNew ∈ product_groups catalog :=
    (mem_product_groups _ _).mpr (List.mem_map.mpr ⟨r, hrmem, hrg⟩)
  have hres := resolve_group_valid catalog entry gNew hgmem
  obtain ⟨j, rest, hfil⟩ := filteredFrom_find_head gNew r catalog 0 hfind
  have hfil2 : get_filtered_df catalog gNew = (j, r) :: rest := hfil
  have hne : get_filtered_df catalog
      (resolve_group catalog entry (some gNew)) ≠ [] := by
    rw [hres, hfil2]
    simp
  rw [hfil2] at hcode hname hdetail hcanon hns hds
  have hfri : find_row_index ((j, r) :: rest) entry = some j :=
    find_row_index_fallback (j, r) rest entry hcode hname hdetail
  have hprev : prevIdx ((j, r) :: rest) entry canonical = j := by
    cases hcan : canonical with
    | none =>
      simp only [prevIdx, Option.getD_none, hfri, Option.getD_some]
      rw [if_pos (by simp : j ∈ ((j, r) :: rest).map Prod.fst)]
    | some v =>
      have hv := hcanon v (hcan ▸ rfl)
      simp only [prevIdx, Option.getD_some]
      rw [if_neg hv]
      simp
  have hselN : selectboxNat (((j, r) :: rest).map Prod.fst) j nameState
      = j := by
    cases hnsv : nameState with
    | none => rfl
    | some v =>
      have hv := hns v hnsv
      unfold selectboxNat
      show (if v ∈ ((j, r) :: rest).map Prod.fst then v else j) = j
      rw [if_neg hv]
  have hselD : selectboxNat (((j, r) :: rest).map Prod.fst) j detailState
      = j := by
    cases hdsv : detailState with
    | none => rfl
    | some v =>
      have hv := hds v hdsv
      unfold selectboxNat
      show (if v ∈ ((j, r) :: rest).map Prod.fst then v else j) = j
      rw [if_neg hv]
  have hnew : newIdx ((j, r) :: rest) entry canonical nameState detailState
      = j := by
    simp only [newIdx, hprev, hselN, hselD]
    simp
  rw [renderEditableRow_core catalog entry canonical (some gNew) nameState
    detailState monthStates hne, hres, hfil2]
  simp [reconcileCore, hnew, lookupRecord_head]

/-- Witness for C1: the stored Dialyzer row is moved to group Bloodline,
whose first catalog record in source order is named Z (alphabetical order
would put Q first); the row resets to the Z record and its code. -/
theorem group_change_resets_witness :
    (renderEditableRow
        [⟨"Dialyzer", "A", "Desc-A", "D1"⟩, ⟨"Bloodline", "Z", "Desc-Z", "B1"⟩,
         ⟨"Bloodline", "Q", "Desc-Q", "B2"⟩]
        ⟨some "Dialyzer", some "A", some "Desc-A", some "D1",
          List.replicate 12 0, 0⟩
        (some 0) (some "Bloodline") (some 0) (some 0) []).entry.name
      = some "Z"
    ∧ (renderEditableRow
        [⟨"Dialyzer", "A", "Desc-A", "D1"⟩, ⟨"Bloodline", "Z", "Desc-Z", "B1"⟩,
         ⟨"Bloodline", "Q", "Desc-Q", "B2"⟩]
        ⟨some "Dialyzer", some "A", some "Desc-A", some "D1",
          List.replicate 12 0, 0⟩
        (some 0) (some "Bloodline") (some 0) (some 0) []).entry.code
      = some "B1" :=
  ⟨(group_change_resets_to_first_source_record
      [⟨"Dialyzer", "A", "Desc-A", "D1"⟩, ⟨"Bloodline", "Z", "Desc-Z", "B1"⟩,
       ⟨"Bloodline", "Q", "Desc-Q", "B2"⟩]
      ⟨some "Dialyzer", some "A", some "Desc-A", some "D1",
        List.replicate 12 0, 0⟩
      (some 0) "Bloodline" (some 0) (some 0) []
      ⟨"Bloodline", "Z", "Desc-Z", "B1"⟩
      (by decide) (by decide) (by decide) (by decide) (by decide)
      (by decide) (by decide)).2.1,
   (group_change_resets_to_first_source_record
      [⟨"Dialyzer", "A", "Desc-A", "D1"⟩, ⟨"Bloodline", "Z", "Desc-Z", "B1"⟩,
       ⟨"Bloodline", "Q", "Desc-Q", "B2"⟩]
      ⟨some "Dialyzer", some "A", some "Desc-A", some "D1",
        List.replicate 12 0, 0⟩
      (some 0) "Bloodline" (some 0) (some 0) []
      ⟨"Bloodline", "Z", "Desc-Z", "B1"⟩
      (by decide) (by decide) (by decide) (by decide) (by decide)
      (by decide) (by decide)).2.2.2.1⟩

/-- Helper: two runs of the reconciliation core over the same filtered frame
agree once their resolved indices and month reads agree. -/
lemma reconcileCore_eq_of (F : List (Nat × CatalogRecord)) (g : String)
    (E1 E2 : Entry) (c1 c2 : Option Nat) (ns1 ds1 ns2 ds2 : Option Nat)
    (ms : List (Option Nat))
    (hidx : newIdx F E1 c1 ns1 ds1 = newIdx F E2 c2 ns2 ds2)
    (hm : readMonths E1.months ms = readMonths E2.months ms) :
    reconcileCore F g E1 c1 ns1 ds1 ms
      = reconcileCore F g E2 c2 ns2 ds2 ms := by
  simp only [reconcileCore, hidx, hm]

/-- Helper: over a fixed non-empty filtered frame, a second run of the
reconciliation core with equal name/detail selector states reproduces the
first run. -/
lemma reconcileCore_idempotent (F : List (Nat × CatalogRecord)) (g : String)
    (e : Entry) (c : Option Nat) (ns : Option Nat)
    (ms : List (Option Nat)) (hF : F ≠ []) :
    reconcileCore F g (reconcileCore F g e c ns ns ms).entry
        (reconcileCore F g e c ns ns ms).canonical ns ns ms
      = reconcileCore F g e c ns ns ms := by
  have hn1mem : newIdx F e c ns ns ∈ F.map Prod.fst :=
    newIdx_mem F e c ns ns hF
  have hcan : (reconcileCore F g e c ns ns ms).canonical
      = some (newIdx F e c ns ns) := rfl
  rw [hcan]
  apply reconcileCore_eq_of
  · rw [newIdx_aligned, prevIdx_canonical_mem F _ _ hn1mem, newIdx_aligned]
    exact selectboxNat_stable _ _ _
  · exact readMonths_idem e.months ms

/-- Claim C5 counterexample: with diverging stored name/detail selector states,
re-running the reconciler with exactly the same selector inputs and month
quantities flips the row to the other record: the output is not
bit-identical, so the reconciler is not idempotent as claimed. -/
theorem reconciler_second_pass_differs :
    (renderEditableRow [⟨"G", "N1", "D1", "C1"⟩, ⟨"G", "N2", "D2", "C2"⟩]
        (renderEditableRow [⟨"G", "N1", "D1", "C1"⟩, ⟨"G", "N2", "D2", "C2"⟩]
          ⟨some "G", some "N1", some "D1", some "C1",
            List.replicate 12 0, 0⟩
          (some 0) (some "G") (some 0) (some 1) []).entry
        (renderEditableRow [⟨"G", "N1", "D1", "C1"⟩, ⟨"G", "N2", "D2", "C2"⟩]
          ⟨some "G", some "N1", some "D1", some "C1",
            List.replicate 12 0, 0⟩
          (some 0) (some "G") (some 0) (some 1) []).canonical
        (some "G") (some 0) (some 1) []).entry
      ≠ (renderEditableRow [⟨"G", "N1", "D1", "C1"⟩, ⟨"G", "N2", "D2", "C2"⟩]
          ⟨some "G", some "N1", some "D1", some "C1",
            List.replicate 12 0, 0⟩
          (some 0) (some "G") (some 0) (some 1) []).entry := by
  decide

/-- Claim C5 amended: the reconciler is idempotent whenever the name and detail
selector states agree (the failing runs are exactly those whose two
selectors hold different indices): re-running the pass on its own output
with the same selector inputs and month quantities is bit-identical, for
every catalog, row state and canonical index. -/
theorem reconciler_idempotent_of_aligned_selectors (catalog : Catalog)
    (e : Entry) (c : Option Nat) (gs : Option String) (ns ds : Option Nat)
    (ms : List (Option Nat)) (hnd : ns = ds) :
    renderEditableRow catalog
        (renderEditableRow catalog e c gs ns ds ms).entry
        (renderEditableRow catalog e c gs ns ds ms).canonical gs ns ds ms
      = renderEditableRow catalog e c gs ns ds ms := by
  subst hnd
  by_cases hfe : get_filtered_df catalog (resolve_group catalog e gs) = []
  · have h1 := renderEditableRow_empty catalog e c gs ns ns ms hfe
    rw [h1]
    exact renderEditableRow_empty catalog e c gs ns ns ms hfe
  · have hcat : catalog ≠ [] := fun hc => hfe (by rw [hc]; rfl)
    have hpgs := product_groups_ne_nil catalog hcat
    have h1 := renderEditableRow_core catalog e c gs ns ns ms hfe
    rw [h1]
    have hres2 : resolve_group catalog
        (reconcileCore (get_filtered_df catalog (resolve_group catalog e gs))
          (resolve_group catalog e gs) e c ns ns ms).entry gs
        = resolve_group catalog e gs :=
      resolve_group_stable catalog e _ gs hpgs rfl
    have hne2 : get_filtered_df catalog (resolve_group catalog
        (reconcileCore (get_filtered_df catalog (resolve_group catalog e gs))
          (resolve_group catalog e gs) e c ns ns ms).entry gs) ≠ [] := by
      rw [hres2]
      exact hfe
    rw [renderEditableRow_core catalog _ _ gs ns ns ms hne2, hres2]
    exact reconcileCore_idempotent _ _ e c ns ms hfe

/-- Witness for C5 amended: with agreeing selector states the second pass
reproduces the first bit for bit. -/
theorem reconciler_idempotent_witness :
    (some 1 : Option Nat) = some 1
    ∧ renderEditableRow [⟨"G", "N1", "D1", "C1"⟩, ⟨"G", "N2", "D2", "C2"⟩]
        (renderEditableRow [⟨"G", "N1", "D1", "C1"⟩, ⟨"G", "N2", "D2", "C2"⟩]
          ⟨some "G", some "N1", some "D1", some "C1",
            List.replicate 12 0, 0⟩
          (some 0) (some "G") (some 1) (some 1) []).entry
        (renderEditableRow [⟨"G", "N1", "D1", "C1"⟩, ⟨"G", "N2", "D2", "C2"⟩]
          ⟨some "G", some "N1", some "D1", some "C1",
            List.replicate 12 0, 0⟩
          (some 0) (some "G") (some 1) (some 1) []).canonical
        (some "G") (some 1) (some 1) []
      = renderEditableRow [⟨"G", "N1", "D1", "C1"⟩, ⟨"G", "N2", "D2", "C2"⟩]
          ⟨some "G", some "N1", some "D1", some "C1",
            List.replicate 12 0, 0⟩
          (some 0) (some "G") (some 1) (some 1) [] :=
  ⟨rfl,
   reconciler_idempotent_of_aligned_selectors
     [⟨"G", "N1", "D1", "C1"⟩, ⟨"G", "N2", "D2", "C2"⟩]
     ⟨some "G", some "N1", some "D1", some "C1", List.replicate 12 0, 0⟩
     (some 0) (some "G") (some 1) (some 1) [] rfl⟩

end ProductForecast
